import Mathlib

/-!
Verification development for the adsb-ingestion-service repository.

The shallow embedding below transcribes the pipeline components:
* `src/adsb_parser.py` — the BaseStation message decoder (`ADSBParser.parse`,
  `_parse_int`, `_parse_float`, `_parse_bool`, `_parse_timestamp`);
* `src/data_processor.py` — the batching/deduplication stage (`DataProcessor`);
* `src/dump1090_client.py` — the reconnect-backoff loop of `read_messages`;
* `src/database_manager.py` — the attribute structure of `DatabaseManager`
  (which module-level dedent makes relevant to the persist path).

Python floats are modelled as exact scaled decimals (`PyFloat`, a mantissa and
a power of ten): the pipeline only parses decimal literals and stores them, it
never computes or compares floats, so no rounding behaviour is observable in
any property treated here.  `datetime.utcnow()` is modelled as an explicit
`now` parameter threaded to the functions that read the clock.  Clock readings
and the batch timeout are exact rationals.
-/

set_option maxRecDepth 8000

namespace Adsb

/-! ## Python string primitives -/

/-- The whitespace characters stripped by Python `str.strip()` (ASCII subset;
the exotic Unicode space code points are not modelled, no field in the claims
contains them). -/
def isPyWs (c : Char) : Bool :=
  c = ' ' || c = '\t' || c = '\n' || c = '\r' || c = '\x0b' || c = '\x0c'

/-- Python `str.strip()`. -/
def pyStrip (s : String) : String :=
  String.mk (((s.toList.dropWhile isPyWs).reverse.dropWhile isPyWs).reverse)

/-- Python `str.lower()` (ASCII; only compared against "false"/"true"). -/
def pyLower (s : String) : String :=
  String.mk (s.toList.map Char.toLower)

/-- `str.split(sep)` for a one-character separator, on the character list. -/
def splitChar (sep : Char) : List Char → List (List Char)
  | [] => [[]]
  | c :: cs =>
      match splitChar sep cs with
      | [] => [[]]
      | g :: gs => if c = sep then [] :: g :: gs else (c :: g) :: gs

/-- Python `str.split(sep)` for a one-character separator (`line.split(',')`);
an empty string yields `[""]`, consecutive separators yield empty fields. -/
def pySplit (sep : Char) (s : String) : List String :=
  (splitChar sep s.toList).map String.mk

def digitVal (c : Char) : Nat := c.toNat - 48

def natOfDigits (ds : List Char) : Nat :=
  ds.foldl (fun acc c => acc * 10 + digitVal c) 0

/-- Maximal leading run of decimal digits, and the remainder. -/
def takeDigits : List Char → List Char × List Char
  | [] => ([], [])
  | c :: cs =>
      if c.isDigit then
        let p := takeDigits cs
        (c :: p.1, p.2)
      else ([], c :: cs)

/-- A non-empty all-digit character list as a number, else `none`. -/
def digitsToNat : List Char → Option Nat
  | [] => none
  | ds => if ds.all Char.isDigit then some (natOfDigits ds) else none

/-! ## Scalar field parsers (`_parse_int`, `_parse_float`, `_parse_bool`) -/

/-- Python `int(str)`: surrounding whitespace allowed, optional sign, decimal
digits.  (The underscore digit-grouping and non-ASCII digits Python also
accepts are not modelled; no claim depends on them.) -/
def pyIntLit (s : String) : Option Int :=
  let cs := ((s.toList.dropWhile isPyWs).reverse.dropWhile isPyWs).reverse
  match cs with
  | '+' :: ds => (digitsToNat ds).map (fun n => (n : Int))
  | '-' :: ds => (digitsToNat ds).map (fun n => -(n : Int))
  | ds => (digitsToNat ds).map (fun n => (n : Int))

/-- `ADSBParser._parse_int`: `int(value) if value and value.strip() else None`,
with `ValueError` mapped to `none`. -/
def pyParseInt (value : String) : Option Int :=
  if value = "" || pyStrip value = "" then none else pyIntLit value

def parseSignedDigits : List Char → Option Int
  | '+' :: ds => (digitsToNat ds).map (fun n => (n : Int))
  | '-' :: ds => (digitsToNat ds).map (fun n => -(n : Int))
  | ds => (digitsToNat ds).map (fun n => (n : Int))

/-- Optional exponent suffix of a Python float literal (must consume the whole
remainder). -/
def parseExpSuffix : List Char → Option Int
  | [] => some 0
  | 'e' :: ds => parseSignedDigits ds
  | 'E' :: ds => parseSignedDigits ds
  | _ => none

/-- The exact value of a parsed Python float literal, kept as a scaled
decimal `mantissa * 10 ^ exp10` (the pipeline never computes or compares
float values, so the literal's exact decimal value is a faithful model). -/
structure PyFloat where
  mantissa : Int
  exp10 : Int
deriving DecidableEq

/-- Unsigned part of a Python float literal. -/
def pyFloatCore (cs : List Char) : Option PyFloat :=
  let ip := takeDigits cs
  match ip.2 with
  | '.' :: r2 =>
      let fp := takeDigits r2
      if ip.1 = [] && fp.1 = [] then none
      else
        match parseExpSuffix fp.2 with
        | none => none
        | some e =>
            some ⟨(natOfDigits (ip.1 ++ fp.1) : Int), e - fp.1.length⟩
  | _ =>
      if ip.1 = [] then none
      else
        match parseExpSuffix ip.2 with
        | none => none
        | some e => some ⟨(natOfDigits ip.1 : Int), e⟩

/-- Python `float(str)` on decimal literals (`"inf"`/`"nan"` spellings and
underscore grouping are not modelled; no claim depends on them). -/
def pyFloatLit (s : String) : Option PyFloat :=
  let cs := ((s.toList.dropWhile isPyWs).reverse.dropWhile isPyWs).reverse
  match cs with
  | '+' :: rest => pyFloatCore rest
  | '-' :: rest => (pyFloatCore rest).map (fun f => ⟨-f.mantissa, f.exp10⟩)
  | rest => pyFloatCore rest

/-- `ADSBParser._parse_float`. -/
def pyParseFloat (value : String) : Option PyFloat :=
  if value = "" || pyStrip value = "" then none else pyFloatLit value

/-- `ADSBParser._parse_bool`. -/
def pyParseBool (value : String) : Option Bool :=
  if value = "" || pyStrip value = "" then none
  else
    let v := pyStrip value
    if v = "0" || pyLower v = "false" then some false
    else if v = "1" || pyLower v = "true" then some true
    else if v = "-1" then some true
    else none

/-! ## Timestamps (`datetime.strptime` on the two fixed formats) -/

structure PyDateTime where
  year : Nat
  month : Nat
  day : Nat
  hour : Nat
  minute : Nat
  second : Nat
  microsecond : Nat
deriving DecidableEq

def isLeapYear (y : Nat) : Bool :=
  y % 4 = 0 && (y % 100 ≠ 0 || y % 400 = 0)

def daysInMonth (y m : Nat) : Nat :=
  if m = 2 then (if isLeapYear y then 29 else 28)
  else if m = 4 || m = 6 || m = 9 || m = 11 then 30
  else 31

/-- One numeric directive of CPython `strptime`: a maximal digit run whose
length and value are constrained by the directive's regular expression
(the following character in both formats is always a non-digit separator or
the end of input, so maximal munch coincides with the regex semantics). -/
def parseNumField (minLen maxLen lo hi : Nat) (cs : List Char) :
    Option (Nat × List Char) :=
  let p := takeDigits cs
  if minLen ≤ p.1.length && p.1.length ≤ maxLen then
    let v := natOfDigits p.1
    if lo ≤ v && v ≤ hi then some (v, p.2) else none
  else none

def expectChar (c : Char) : List Char → Option (List Char)
  | [] => none
  | x :: xs => if x = c then some xs else none

/-- Whitespace in a `strptime` format string matches one or more whitespace
characters. -/
def skipWs1 : List Char → Option (List Char)
  | [] => none
  | c :: rest => if isPyWs c then some (rest.dropWhile isPyWs) else none

/-- `datetime.strptime(s, "%Y/%m/%d %H:%M:%S[.%f]")`: the regex match of the
numeric directives, the whole-input requirement, and the `datetime`
constructor's range checks (year ≥ 1, day within the month, second ≤ 59 even
though the regex itself admits leap seconds 60/61). -/
def strptimeSbs (withFrac : Bool) (s : String) : Option PyDateTime := do
  let (y, r1) ← parseNumField 4 4 0 9999 s.toList
  let r2 ← expectChar '/' r1
  let (mo, r3) ← parseNumField 1 2 1 12 r2
  let r4 ← expectChar '/' r3
  let (d, r5) ← parseNumField 1 2 1 31 r4
  let r6 ← skipWs1 r5
  let (h, r7) ← parseNumField 1 2 0 23 r6
  let r8 ← expectChar ':' r7
  let (mi, r9) ← parseNumField 1 2 0 59 r8
  let r10 ← expectChar ':' r9
  let (se, r11) ← parseNumField 1 2 0 61 r10
  let (us, rfin) ←
    if withFrac then do
      let r12 ← expectChar '.' r11
      let p := takeDigits r12
      if 1 ≤ p.1.length && p.1.length ≤ 6 then
        pure (natOfDigits p.1 * 10 ^ (6 - p.1.length), p.2)
      else none
    else pure (0, r11)
  if rfin ≠ [] then none
  else if y = 0 || daysInMonth y mo < d || 60 ≤ se then none
  else pure ⟨y, mo, d, h, mi, se, us⟩

/-- `ADSBParser._parse_timestamp`: empty date or time falls back to
`datetime.utcnow()` (the `now` argument); otherwise the fractional-seconds
format is attempted first, then the whole-seconds format, and if both raise
`ValueError` the current instant is substituted. -/
def pyParseTimestamp (now : PyDateTime) (dateS timeS : String) : PyDateTime :=
  if dateS = "" || timeS = "" then now
  else
    match strptimeSbs true (dateS ++ " " ++ timeS) with
    | some t => t
    | none =>
        match strptimeSbs false (dateS ++ " " ++ timeS) with
        | some t => t
        | none => now

/-! ## The decoder (`ADSBParser.parse`) -/

/-- Keys of `ADSBParser.MESSAGE_TYPES`. -/
def MESSAGE_TYPES : List String := ["SEL", "ID", "AIR", "STA", "CLK", "MSG"]

/-- The dictionary built by `ADSBParser.parse`.  `none` stands both for a key
that is absent and for a key holding Python `None`; the two are
indistinguishable to every consumer in the repository (`dict.get`). -/
structure ParsedMessage where
  message_type : String
  transmission_type : Option Int
  session_id : Option Int
  aircraft_id : Option Int
  icao24 : Option String
  flight_id : Option Int
  timestamp : Option PyDateTime
  callsign : Option String
  altitude : Option Int
  ground_speed : Option PyFloat
  track : Option PyFloat
  lat : Option PyFloat
  lon : Option PyFloat
  vertical_rate : Option Int
  squawk : Option String
  alert : Option Bool
  emergency : Option Bool
  spi : Option Bool
  is_on_ground : Option Bool
deriving DecidableEq

/-- `ADSBParser.parse`.  Field indices below 10 are guarded by the length
check, so `getD` never uses its default where Python would raise; the
`try/except` wrapper needs no separate modelling because every field parser
is total. -/
def pyParse (now : PyDateTime) (line : String) : Option ParsedMessage :=
  let fields := pySplit ',' line
  if fields.length < 10 then none
  else
    let message_type := fields.getD 0 ""
    if message_type ∉ MESSAGE_TYPES then none
    else
      let base : ParsedMessage :=
        { message_type := message_type
          transmission_type := pyParseInt (fields.getD 1 "")
          session_id := pyParseInt (fields.getD 2 "")
          aircraft_id := pyParseInt (fields.getD 3 "")
          icao24 := some (pyStrip (fields.getD 4 ""))
          flight_id := pyParseInt (fields.getD 5 "")
          timestamp := some (pyParseTimestamp now (fields.getD 6 "") (fields.getD 7 ""))
          callsign := none, altitude := none, ground_speed := none, track := none
          lat := none, lon := none, vertical_rate := none, squawk := none
          alert := none, emergency := none, spi := none, is_on_ground := none }
      let parsed :=
        if message_type = "MSG" ∧ 22 ≤ fields.length then
          { base with
            callsign :=
              if fields.getD 10 "" ≠ "" then some (pyStrip (fields.getD 10 "")) else none
            altitude := pyParseInt (fields.getD 11 "")
            ground_speed := pyParseFloat (fields.getD 12 "")
            track := pyParseFloat (fields.getD 13 "")
            lat := pyParseFloat (fields.getD 14 "")
            lon := pyParseFloat (fields.getD 15 "")
            vertical_rate := pyParseInt (fields.getD 16 "")
            squawk :=
              if fields.getD 17 "" ≠ "" then some (pyStrip (fields.getD 17 "")) else none
            alert := pyParseBool (fields.getD 18 "")
            emergency := pyParseBool (fields.getD 19 "")
            spi := pyParseBool (fields.getD 20 "")
            is_on_ground := pyParseBool (fields.getD 21 "") }
        else base
      let icaoFalsy :=
        match parsed.icao24 with
        | none => true
        | some s => s = ""
      if icaoFalsy || parsed.timestamp.isNone then none else some parsed

/-! ## The batch processor (`DataProcessor`) -/

/-- The configuration fields `DataProcessor.__init__` reads (the configured
`dedup_window` is read but never used by any method, so it has no observable
effect and is omitted from the state). -/
structure ProcConfig where
  batchSize : Nat
  batchTimeout : ℚ
  enableDedup : Bool
deriving DecidableEq

/-- `DataProcessor.stats`. -/
@[ext]
structure ProcStats where
  received : Nat
  processed : Nat
  discarded : Nat
  batchesWritten : Nat
  errors : Nat
deriving DecidableEq

/-- The mutable state of a `DataProcessor`, generic in the message type `M`
(the Python code stores arbitrary dictionaries).  `recent` is the
`collections.deque(maxlen=1000)` dedup cache, oldest key first. -/
@[ext]
structure ProcState (M : Type) where
  queue : List M
  recent : List String
  lastFlush : ℚ
  stats : ProcStats
deriving DecidableEq

/-- `maxlen` of `DataProcessor.recent_messages`. -/
def RECENT_MAXLEN : Nat := 1000

/-- The last `n` elements of a list. -/
def lastN (n : Nat) (xs : List α) : List α := xs.drop (xs.length - n)

/-- `collections.deque(maxlen=n).append`: append, evicting from the opposite
end once the deque is full. -/
def dequeAppend (maxlen : Nat) (xs : List α) (x : α) : List α :=
  lastN maxlen (xs ++ [x])

/-- Zero-padded decimal rendering (CPython `str(datetime)` padding). -/
def padNum (w n : Nat) : String :=
  let s := toString n
  if s.length < w then String.mk (List.replicate (w - s.length) '0') ++ s else s

/-- Python `str(datetime)`: microseconds are printed only when non-zero. -/
def renderPyDateTime (t : PyDateTime) : String :=
  padNum 4 t.year ++ "-" ++ padNum 2 t.month ++ "-" ++ padNum 2 t.day ++ " " ++
  padNum 2 t.hour ++ ":" ++ padNum 2 t.minute ++ ":" ++ padNum 2 t.second ++
  (if t.microsecond ≠ 0 then "." ++ padNum 6 t.microsecond else "")

/-- Python `str` of an optional int as rendered by an f-string
(`None` prints as "None"). -/
def renderOptInt : Option Int → String
  | none => "None"
  | some i => toString i

/-- `DataProcessor._message_key` on decoder output: the f-string
`icao:timestamp:transmission_type` with `dict.get` defaults. -/
def messageKey (m : ParsedMessage) : String :=
  (match m.icao24 with | none => "" | some s => s) ++ ":" ++
  (match m.timestamp with | none => "" | some t => renderPyDateTime t) ++ ":" ++
  renderOptInt m.transmission_type

variable {M : Type} [DecidableEq M]

/-- `DataProcessor._flush_batch`.  The database manager is an oracle
`db : batch → error ⊕ inserted-count`; the second component of the result is
the batch handed to `db.batch_insert_messages` during this call (`none` when
the queue was empty and no call was made).  On success `last_flush` is
updated and the processed / batches-written counters advance; on failure only
the error counter advances and the cleared queue is not restored (the
re-queue line in the source is commented out). -/
def flushBatch (db : List M → Except Unit Nat) (now : ℚ) (s : ProcState M) :
    ProcState M × Option (List M) :=
  if s.queue = [] then (s, none)
  else
    let messages := s.queue
    let s1 : ProcState M := { s with queue := [] }
    match db messages with
    | Except.ok inserted =>
        ({ s1 with
            stats := { s1.stats with
                        processed := s1.stats.processed + inserted
                        batchesWritten := s1.stats.batchesWritten + 1 }
            lastFlush := now }, some messages)
    | Except.error _ =>
        ({ s1 with stats := { s1.stats with errors := s1.stats.errors + 1 } },
         some messages)

/-- The non-duplicate path of `add_message` before the trigger checks:
append the message to the queue, record its key in the recency cache, and
(since `messages_received` is incremented at the top of `add_message` in the
source, before the branch) count the message as received. -/
def enqueueMsg (key : M → String) (s : ProcState M) (m : M) : ProcState M :=
  { s with
      queue := s.queue ++ [m]
      recent := dequeAppend RECENT_MAXLEN s.recent (key m)
      stats := { s.stats with received := s.stats.received + 1 } }

/-- `DataProcessor.add_message` (the body under the lock; a single `now`
stands for the `time.time()` reads made during the call).  The duplicate
branch counts the message as received and discarded and returns; otherwise
the message is queued, its key recorded, and the size trigger, then the time
trigger, is evaluated. -/
def addMessage (key : M → String) (cfg : ProcConfig) (db : List M → Except Unit Nat)
    (now : ℚ) (s : ProcState M) (m : M) : ProcState M × Option (List M) :=
  if cfg.enableDedup ∧ key m ∈ s.recent then
    ({ s with stats :=
        { s.stats with
            received := s.stats.received + 1,
            discarded := s.stats.discarded + 1 } }, none)
  else
    if cfg.batchSize ≤ (enqueueMsg key s m).queue.length then
      flushBatch db now (enqueueMsg key s m)
    else if cfg.batchTimeout ≤ now - (enqueueMsg key s m).lastFlush then
      flushBatch db now (enqueueMsg key s m)
    else (enqueueMsg key s m, none)

/-- A sequence of `add_message` calls, each tagged with its clock reading;
also collects the batches handed to the storage writer, in order. -/
def runAdds (key : M → String) (cfg : ProcConfig) (db : List M → Except Unit Nat) :
    List (ℚ × M) → ProcState M → ProcState M × List (List M)
  | [], s => (s, [])
  | p :: rest, s =>
      let r := addMessage key cfg db p.1 s p.2
      let rr := runAdds key cfg db rest r.1
      (rr.1, r.2.toList ++ rr.2)

/-- The keys recorded in the recency set by a sequence of `add_message` calls
(those of the messages that pass the duplicate check), mirroring the dedup
branch of `add_message`; the recency set evolves independently of the queue,
the clock and the writer. -/
def recordedKeys (key : M → String) (dedup : Bool) :
    List (ℚ × M) → List String → List String
  | [], _ => []
  | p :: rest, rc =>
      if dedup ∧ key p.2 ∈ rc then recordedKeys key dedup rest rc
      else key p.2 :: recordedKeys key dedup rest (dequeAppend RECENT_MAXLEN rc (key p.2))

/-- `DataProcessor.__init__` state: empty queue, empty recency cache,
`last_flush = time.time()` at construction, zeroed counters. -/
def initState (M : Type) (t0 : ℚ) : ProcState M :=
  { queue := [], recent := [], lastFlush := t0
    stats := { received := 0, processed := 0, discarded := 0
               batchesWritten := 0, errors := 0 } }

/-! ## The stream reader (`Dump1090Client.read_messages`) -/

structure ReaderCfg where
  reconnectInterval : Nat
  maxReconnectInterval : Nat
deriving DecidableEq

/-- The reconnect path of `Dump1090Client.read_messages`: given the current
backoff interval and the outcomes of successive connect attempts, the list of
sleeps performed.  A success resets the interval to the configured initial
value; a failure sleeps the current interval and then doubles it, capped at
the configured maximum. -/
def reconnectWaits (cfg : ReaderCfg) : Nat → List Bool → List Nat
  | _, [] => []
  | cur, ok :: rest =>
      if ok then reconnectWaits cfg cfg.reconnectInterval rest
      else cur :: reconnectWaits cfg (min (cur * 2) cfg.maxReconnectInterval) rest

/-! ## The storage writer (`database_manager.py` attribute structure)

In the source file, `def batch_insert_messages(self, ...)` at line 85 sits at
column 0 — module level — not inside `class DatabaseManager`; consequently
`_upsert_aircraft`, `_insert_positions`, `get_stats` and `health_check`
(indented four spaces after it) are nested functions of its body, placed after
its `return` statement.  The lists below transcribe where each `def` actually
lives. -/

/-- The methods `class DatabaseManager` actually defines (the `def`s indented
under the class statement). -/
def databaseManagerClassMethods : List String :=
  ["__init__", "_init_connection_pool", "_verify_connection", "get_connection"]

/-- The `def`s at module level in `database_manager.py`. -/
def databaseManagerModuleLevelDefs : List String :=
  ["batch_insert_messages"]

/-- The `def`s nested inside the body of the module-level
`batch_insert_messages`, all placed after its `return inserted`. -/
def batchInsertMessagesNestedDefs : List String :=
  ["_upsert_aircraft", "_insert_positions", "get_stats", "health_check"]

/-- The well-formed MSG line of the spec's scenario test. -/
def scenarioLine : String :=
  "MSG,3,1,1,A12345,1,2024/01/01,12:00:00.000,2024/01/01,12:00:00.000,TEST123,35000,450.0,180.0,40.0,-75.0,0,,0,0,0,0"

/-- The record the scenario line decodes to. -/
def scenarioRecord : ParsedMessage :=
  { message_type := "MSG", transmission_type := some 3, session_id := some 1
    aircraft_id := some 1, icao24 := some "A12345", flight_id := some 1
    timestamp := some ⟨2024, 1, 1, 12, 0, 0, 0⟩, callsign := some "TEST123"
    altitude := some 35000
    ground_speed := some ⟨4500, -1⟩, track := some ⟨1800, -1⟩
    lat := some ⟨400, -1⟩, lon := some ⟨-750, -1⟩
    vertical_rate := some 0, squawk := none
    alert := some false, emergency := some false, spi := some false
    is_on_ground := some false }

/-! ## Helper lemmas -/

theorem lastN_length_le (n : Nat) (xs : List α) : (lastN n xs).length ≤ n := by
  simp only [lastN, List.length_drop]
  omega

theorem lastN_of_length_le {n : Nat} {xs : List α} (h : xs.length ≤ n) :
    lastN n xs = xs := by
  simp [lastN, Nat.sub_eq_zero_of_le h]

theorem lastN_append_lastN (n : Nat) (xs ys : List α) :
    lastN n (lastN n xs ++ ys) = lastN n (xs ++ ys) := by
  rcases le_or_lt xs.length n with h | h
  · rw [lastN_of_length_le h]
  · show (lastN n xs ++ ys).drop ((lastN n xs ++ ys).length - n) = _
    have hlen : (lastN n xs).length = n := by
      simp only [lastN, List.length_drop]; omega
    have e1 : lastN n xs ++ ys = (xs ++ ys).drop (xs.length - n) := by
      exact (List.drop_append_of_le_length (by omega)).symm
    rw [List.length_append, hlen, e1, List.drop_drop]
    show (xs ++ ys).drop (xs.length - n + (n + ys.length - n)) = _
    simp only [lastN, List.length_append]
    congr 1
    omega

theorem mem_of_mem_lastN {a : α} {n : Nat} {xs : List α} (h : a ∈ lastN n xs) :
    a ∈ xs :=
  List.mem_of_mem_drop h

theorem mem_dequeAppend {a x : α} {n : Nat} {xs : List α}
    (h : a ∈ dequeAppend n xs x) : a ∈ xs ∨ a = x := by
  have h2 : a ∈ xs ++ [x] := List.mem_of_mem_drop h
  simpa using h2

theorem self_mem_dequeAppend {n : Nat} (hn : 0 < n) (xs : List α) (x : α) :
    x ∈ dequeAppend n xs x := by
  show x ∈ (xs ++ [x]).drop ((xs ++ [x]).length - n)
  rw [List.drop_append_of_le_length (by simp; omega)]
  simp

variable {M : Type} [DecidableEq M]

theorem flushBatch_fst_recent (db : List M → Except Unit Nat) (now : ℚ)
    (s : ProcState M) : ((flushBatch db now s).1).recent = s.recent := by
  by_cases h : s.queue = []
  · simp [flushBatch, h]
  · simp only [flushBatch, if_neg h]
    cases db s.queue <;> rfl

theorem flushBatch_fst_received (db : List M → Except Unit Nat) (now : ℚ)
    (s : ProcState M) : ((flushBatch db now s).1).stats.received = s.stats.received := by
  by_cases h : s.queue = []
  · simp [flushBatch, h]
  · simp only [flushBatch, if_neg h]
    cases db s.queue <;> rfl

theorem addMessage_fst_received (key : M → String) (cfg : ProcConfig)
    (db : List M → Except Unit Nat) (now : ℚ) (s : ProcState M) (m : M) :
    ((addMessage key cfg db now s m).1).stats.received = s.stats.received + 1 := by
  unfold addMessage
  split_ifs with h1 h2 h3
  · rfl
  · rw [flushBatch_fst_received]; rfl
  · rw [flushBatch_fst_received]; rfl
  · rfl

theorem min_mul_right_min (a m p : Nat) (hp : 0 < p) :
    min (min a m * p) m = min (a * p) m := by
  rcases Nat.le_total a m with h | h
  · rw [Nat.min_eq_left h]
  · rw [Nat.min_eq_right h]
    have h1 : m ≤ m * p := Nat.le_mul_of_pos_right m hp
    have h2 : m ≤ a * p := le_trans h (Nat.le_mul_of_pos_right a hp)
    rw [Nat.min_eq_right h1, Nat.min_eq_right h2]

theorem reconnectWaits_replicate (cfg : ReaderCfg) :
    ∀ (n i : Nat) (cur : Nat) (rest : List Bool), i < n →
      cur ≤ cfg.maxReconnectInterval →
      (reconnectWaits cfg cur (List.replicate n false ++ rest)).getD i 0
        = min (cur * 2 ^ i) cfg.maxReconnectInterval
  | 0, i, cur, rest, hi, _ => absurd hi (Nat.not_lt_zero i)
  | n + 1, 0, cur, rest, _, hcur => by
      simp [reconnectWaits, Nat.min_eq_left hcur]
  | n + 1, i + 1, cur, rest, hi, hcur => by
      have step := reconnectWaits_replicate cfg n i
        (min (cur * 2) cfg.maxReconnectInterval) rest
        (by omega) (Nat.min_le_right _ _)
      have hrw : List.replicate (n + 1) false ++ rest
          = false :: (List.replicate n false ++ rest) := by
        simp [List.replicate_succ]
      have hstep : reconnectWaits cfg cur (false :: (List.replicate n false ++ rest))
          = cur :: reconnectWaits cfg (min (cur * 2) cfg.maxReconnectInterval)
              (List.replicate n false ++ rest) := by
        simp [reconnectWaits]
      rw [hrw, hstep, List.getD_cons_succ, step,
        min_mul_right_min _ _ _ (pow_pos (by omega : (0 : Nat) < 2) i)]
      congr 1
      ring

theorem addMessage_fst_recent (key : M → String) (cfg : ProcConfig)
    (db : List M → Except Unit Nat) (now : ℚ) (s : ProcState M) (m : M) :
    ((addMessage key cfg db now s m).1).recent =
      if cfg.enableDedup = true ∧ key m ∈ s.recent then s.recent
      else dequeAppend RECENT_MAXLEN s.recent (key m) := by
  by_cases hc : cfg.enableDedup = true ∧ key m ∈ s.recent
  · rw [if_pos hc]
    unfold addMessage
    rw [if_pos hc]
  · rw [if_neg hc]
    unfold addMessage
    rw [if_neg hc]
    split_ifs with h2 h3
    · rw [flushBatch_fst_recent]; rfl
    · rw [flushBatch_fst_recent]; rfl
    · rfl

/-- The duplicate branch of `add_message`: count and return, touching nothing
else. -/
theorem addMessage_duplicate (key : M → String) (cfg : ProcConfig)
    (db : List M → Except Unit Nat) (now : ℚ) (s : ProcState M) (m : M)
    (hded : cfg.enableDedup = true) (hdup : key m ∈ s.recent) :
    addMessage key cfg db now s m =
      ({ s with stats :=
          { s.stats with
              received := s.stats.received + 1,
              discarded := s.stats.discarded + 1 } }, none) := by
  unfold addMessage
  rw [if_pos ⟨hded, hdup⟩]

/-- The fresh-message branch of `add_message` when neither flush trigger
fires: enqueue, record the key, count. -/
theorem addMessage_fresh_noflush (key : M → String) (cfg : ProcConfig)
    (db : List M → Except Unit Nat) (now : ℚ) (s : ProcState M) (m : M)
    (hfresh : ¬ (cfg.enableDedup = true ∧ key m ∈ s.recent))
    (hsize : s.queue.length + 1 < cfg.batchSize)
    (htime : now - s.lastFlush < cfg.batchTimeout) :
    addMessage key cfg db now s m =
      ({ s with
          queue := s.queue ++ [m],
          recent := dequeAppend RECENT_MAXLEN s.recent (key m),
          stats := { s.stats with received := s.stats.received + 1 } }, none) := by
  unfold addMessage
  rw [if_neg hfresh, if_neg (by simp [enqueueMsg]; omega),
    if_neg (show ¬ cfg.batchTimeout ≤ now - (enqueueMsg key s m).lastFlush from
      not_le.mpr htime)]
  rfl

theorem flushBatch_nonempty (db : List M → Except Unit Nat) (now : ℚ)
    (s : ProcState M) (h : s.queue ≠ []) :
    ((flushBatch db now s).1).queue = [] ∧ (flushBatch db now s).2 = some s.queue := by
  cases hdb : db s.queue <;> simp [flushBatch, if_neg h, hdb]

theorem mem_foldl_dequeAppend (key : M → String) {a : String} :
    ∀ (l : List (ℚ × M)) (xs : List String),
      a ∈ l.foldl (fun rc p => dequeAppend RECENT_MAXLEN rc (key p.2)) xs →
      a ∈ xs ∨ ∃ p ∈ l, a = key p.2
  | [], _, h => Or.inl h
  | p :: rest, xs, h => by
      rcases mem_foldl_dequeAppend key rest
          (dequeAppend RECENT_MAXLEN xs (key p.2)) h with h1 | ⟨q, hq, he⟩
      · rcases mem_dequeAppend h1 with h2 | h2
        · exact Or.inl h2
        · exact Or.inr ⟨p, by simp, h2⟩
      · exact Or.inr ⟨q, by simp [hq], he⟩

theorem runAdds_append (key : M → String) (cfg : ProcConfig)
    (db : List M → Except Unit Nat) (xs ys : List (ℚ × M)) (s : ProcState M) :
    runAdds key cfg db (xs ++ ys) s
      = ((runAdds key cfg db ys (runAdds key cfg db xs s).1).1,
         (runAdds key cfg db xs s).2
           ++ (runAdds key cfg db ys (runAdds key cfg db xs s).1).2) := by
  induction xs generalizing s with
  | nil => simp [runAdds]
  | cons p rest ih => simp [runAdds, ih, List.append_assoc]

/-- A run of `add_message` calls none of which fires a flush trigger: all
messages accumulate on the queue in order, every key is recorded, the clock
of the last flush is untouched and nothing is handed to the writer. -/
theorem runAdds_noflush (key : M → String) (cfg : ProcConfig)
    (db : List M → Except Unit Nat) (pairs : List (ℚ × M)) (s : ProcState M)
    (hsize : s.queue.length + pairs.length < cfg.batchSize)
    (htime : ∀ p ∈ pairs, p.1 - s.lastFlush < cfg.batchTimeout)
    (hfresh : ∀ p ∈ pairs, key p.2 ∉ s.recent)
    (hnodup : (pairs.map fun p => key p.2).Nodup) :
    runAdds key cfg db pairs s =
      ({ s with
          queue := s.queue ++ pairs.map Prod.snd,
          recent := pairs.foldl
            (fun rc p => dequeAppend RECENT_MAXLEN rc (key p.2)) s.recent,
          stats := { s.stats with received := s.stats.received + pairs.length } },
       []) := by
  induction pairs generalizing s with
  | nil => simp [runAdds]
  | cons p rest ih =>
      have hstep := addMessage_fresh_noflush key cfg db p.1 s p.2
        (fun hc => hfresh p (by simp) hc.2)
        (by simp only [List.length_cons] at hsize; omega)
        (htime p (by simp))
      have hrest := ih
        { s with
            queue := s.queue ++ [p.2],
            recent := dequeAppend RECENT_MAXLEN s.recent (key p.2),
            stats := { s.stats with received := s.stats.received + 1 } }
        (by
          show (s.queue ++ [p.2]).length + rest.length < cfg.batchSize
          simp only [List.length_cons] at hsize
          simp only [List.length_append, List.length_singleton]
          omega)
        (fun q hq => htime q (by simp [hq]))
        (fun q hq hmem => by
          rcases mem_dequeAppend hmem with h2 | h2
          · exact hfresh q (by simp [hq]) h2
          · have hmap : key q.2 ∈ rest.map fun r => key r.2 :=
              List.mem_map.mpr ⟨q, hq, rfl⟩
            rw [h2] at hmap
            simp only [List.map_cons, List.nodup_cons] at hnodup
            exact hnodup.1 hmap)
        (by simp only [List.map_cons, List.nodup_cons] at hnodup; exact hnodup.2)
      simp only [runAdds, hstep, Option.toList_none, List.nil_append]
      rw [hrest]
      simp only [List.append_nil]
      refine Prod.ext ?_ rfl
      apply ProcState.ext
      · show (s.queue ++ [p.2]) ++ rest.map Prod.snd
            = s.queue ++ (p :: rest).map Prod.snd
        simp
      · rfl
      · rfl
      · apply ProcStats.ext
        · show s.stats.received + 1 + rest.length
              = s.stats.received + (p :: rest).length
          simp only [List.length_cons]
          omega
        all_goals rfl

/-! ## Claim theorems -/

/-- C1: the claim describes `batch_insert_messages` as the persist method of
the storage writer (upsert aircraft, then messages, then positions, in one
transaction, returning the inserted count).  In the source the `def` is
dedented to module level, so `class DatabaseManager` has no
`batch_insert_messages` attribute — `self.db.batch_insert_messages(batch)` in
`DataProcessor._flush_batch` raises `AttributeError` for every batch — and
`_upsert_aircraft` is an unreachable nested function of its body rather than a
method, so even the module-level function fails at its first statement.
Nothing is ever upserted or inserted, contradicting the claim and the
function's own docstring. -/
theorem batch_insert_messages_not_a_method :
    "batch_insert_messages" ∉ databaseManagerClassMethods ∧
    "_upsert_aircraft" ∉ databaseManagerClassMethods ∧
    "batch_insert_messages" ∈ databaseManagerModuleLevelDefs ∧
    "_upsert_aircraft" ∈ batchInsertMessagesNestedDefs := by
  decide

/-- C8: in the reconnect loop, a failed connect attempt sleeps the current
interval (the configured initial interval on the first failure), the interval
doubles after each consecutive failure capped at the configured ceiling — so
the Nth consecutive failure from a fresh interval waits
`min(initial * 2^(N-1), ceiling)` (index `i = N-1` below) — and a successful
connect resets the interval to the initial one. -/
theorem reconnect_backoff (cfg : ReaderCfg)
    (hle : cfg.reconnectInterval ≤ cfg.maxReconnectInterval) :
    (∀ cur rest, (reconnectWaits cfg cur (false :: rest)).head? = some cur) ∧
    (∀ cur rest, reconnectWaits cfg cur (true :: rest)
        = reconnectWaits cfg cfg.reconnectInterval rest) ∧
    (∀ n i rest, i < n →
      (reconnectWaits cfg cfg.reconnectInterval
          (List.replicate n false ++ rest)).getD i 0
        = min (cfg.reconnectInterval * 2 ^ i) cfg.maxReconnectInterval) := by
  refine ⟨fun cur rest => ?_, fun cur rest => ?_, fun n i rest hi => ?_⟩
  · simp [reconnectWaits]
  · simp [reconnectWaits]
  · exact reconnectWaits_replicate cfg n i cfg.reconnectInterval rest hi hle

/-- Witness for C8 at the default configuration (initial 5 s, ceiling 60 s):
the fifth consecutive failure waits `min(5·2⁴, 60) = 60` seconds. -/
theorem reconnect_backoff_witness :
    (5 : Nat) ≤ 60 ∧
    (reconnectWaits ⟨5, 60⟩ 5 (List.replicate 5 false ++ [])).getD 4 0
      = min (5 * 2 ^ 4) 60 ∧
    min (5 * 2 ^ 4) (60 : Nat) = 60 :=
  ⟨by decide, (reconnect_backoff ⟨5, 60⟩ (by decide)).2.2 5 4 [] (by decide), by decide⟩

/-- C10: an `add_message` call that discards a duplicate changes only the
received and discarded counters; the queue, the recency set and the last-flush
timestamp are untouched, no batch is handed to the writer, and in particular
the duplicate's key is not re-recorded. -/
theorem duplicate_discard_frame (key : M → String) (cfg : ProcConfig)
    (db : List M → Except Unit Nat) (now : ℚ) (s : ProcState M) (m : M)
    (hded : cfg.enableDedup = true) (hdup : key m ∈ s.recent) :
    addMessage key cfg db now s m =
      ({ s with stats :=
          { s.stats with
              received := s.stats.received + 1,
              discarded := s.stats.discarded + 1 } }, none) :=
  addMessage_duplicate key cfg db now s m hded hdup

/-- Witness for C10: a concrete duplicate add. -/
theorem duplicate_discard_frame_witness :
    (⟨10, 5, true⟩ : ProcConfig).enableDedup = true ∧
    toString 3 ∈ ({ queue := [7], recent := ["3"], lastFlush := 0, stats := ⟨4, 1, 0, 1, 0⟩ } : ProcState Nat).recent ∧
    addMessage (fun n => toString n) ⟨10, 5, true⟩ (fun l => Except.ok l.length) 2
        { queue := [7], recent := ["3"], lastFlush := 0, stats := ⟨4, 1, 0, 1, 0⟩ } 3
      = ({ queue := [7], recent := ["3"], lastFlush := 0, stats := ⟨5, 1, 1, 1, 0⟩ }, none) :=
  ⟨rfl, by decide,
   duplicate_discard_frame (fun n => toString n) ⟨10, 5, true⟩
     (fun l => Except.ok l.length) 2
     { queue := [7], recent := ["3"], lastFlush := 0, stats := ⟨4, 1, 0, 1, 0⟩ } 3
     rfl (by decide)⟩

/-- C9: after any sequence of `add_message` calls (any clock readings, any
configuration, any writer behaviour — the bound is by entry count only), the
recency set holds at most 1000 keys, and it is exactly the suffix of the
recorded-key history: the most recent keys, the oldest evicted first. -/
theorem recent_is_bounded_recency_set (key : M → String) (cfg : ProcConfig)
    (db : List M → Except Unit Nat) (pairs : List (ℚ × M)) (s : ProcState M)
    (hlen : s.recent.length ≤ RECENT_MAXLEN) :
    ((runAdds key cfg db pairs s).1).recent.length ≤ RECENT_MAXLEN ∧
    ((runAdds key cfg db pairs s).1).recent
      = lastN RECENT_MAXLEN
          (s.recent ++ recordedKeys key cfg.enableDedup pairs s.recent) := by
  induction pairs generalizing s with
  | nil =>
      simpa [runAdds, recordedKeys, lastN_of_length_le hlen] using hlen
  | cons p rest ih =>
      have hstep := addMessage_fst_recent key cfg db p.1 s p.2
      by_cases hc : cfg.enableDedup = true ∧ key p.2 ∈ s.recent
      · rw [if_pos hc] at hstep
        have ih2 := ih (addMessage key cfg db p.1 s p.2).1 (by rw [hstep]; exact hlen)
        rw [hstep] at ih2
        have hrec : recordedKeys key cfg.enableDedup (p :: rest) s.recent
            = recordedKeys key cfg.enableDedup rest s.recent := by
          rw [recordedKeys, if_pos hc]
        constructor
        · simpa [runAdds] using ih2.1
        · have h2 := ih2.2
          simp only [runAdds, hrec]
          simpa using h2
      · rw [if_neg hc] at hstep
        have hlen1 : ((addMessage key cfg db p.1 s p.2).1).recent.length ≤ RECENT_MAXLEN := by
          rw [hstep]; exact lastN_length_le _ _
        have ih2 := ih (addMessage key cfg db p.1 s p.2).1 hlen1
        rw [hstep] at ih2
        have hrec : recordedKeys key cfg.enableDedup (p :: rest) s.recent
            = key p.2 ::
                recordedKeys key cfg.enableDedup rest
                  (dequeAppend RECENT_MAXLEN s.recent (key p.2)) := by
          rw [recordedKeys, if_neg hc]
        constructor
        · simpa [runAdds] using ih2.1
        · have h2 := ih2.2
          simp only [runAdds, hrec]
          have hsplit : s.recent ++
              (key p.2 ::
                recordedKeys key cfg.enableDedup rest
                  (dequeAppend RECENT_MAXLEN s.recent (key p.2)))
              = (s.recent ++ [key p.2]) ++
                recordedKeys key cfg.enableDedup rest
                  (dequeAppend RECENT_MAXLEN s.recent (key p.2)) := by
            simp
          rw [hsplit, ← lastN_append_lastN]
          simpa [dequeAppend] using h2

/-- Witness for C9: three adds from the initial state. -/
theorem recent_is_bounded_recency_set_witness :
    (((initState Nat 0).recent.length ≤ RECENT_MAXLEN) ∧
     ((runAdds (fun n => toString n) ⟨10, 5, true⟩ (fun l => Except.ok l.length)
          [(1, 4), (1, 4), (2, 6)] (initState Nat 0)).1).recent.length ≤ RECENT_MAXLEN) ∧
    ((runAdds (fun n => toString n) ⟨10, 5, true⟩ (fun l => Except.ok l.length)
        [(1, 4), (1, 4), (2, 6)] (initState Nat 0)).1).recent
      = lastN RECENT_MAXLEN
          ((initState Nat 0).recent ++
            recordedKeys (fun n => toString n) true [(1, 4), (1, 4), (2, 6)]
              (initState Nat 0).recent) :=
  have h := recent_is_bounded_recency_set (fun n => toString n) ⟨10, 5, true⟩
    (fun l => Except.ok l.length) [(1, 4), (1, 4), (2, 6)] (initState Nat 0) (by decide)
  ⟨⟨by decide, h.1⟩, h.2⟩

/-- C2: starting from an empty queue, adding exactly `batch_size` messages
whose dedup keys are pairwise distinct and absent from the recency set, each
add occurring strictly less than `batch_timeout` after the last flush,
produces exactly one flush: the batch of all `batch_size` messages in arrival
order is handed to the storage writer, the queue is empty when the final add
returns, no flush occurs during the earlier adds (the single flush is
synchronous within the final call), and the handed batch has exactly
`batch_size` records. -/
theorem batch_size_triggers_single_flush (key : M → String) (cfg : ProcConfig)
    (db : List M → Except Unit Nat) (pairs : List (ℚ × M)) (s : ProcState M)
    (hq : s.queue = []) (hn : pairs.length = cfg.batchSize)
    (hbs : 1 ≤ cfg.batchSize)
    (htime : ∀ p ∈ pairs, p.1 - s.lastFlush < cfg.batchTimeout)
    (hfresh : ∀ p ∈ pairs, key p.2 ∉ s.recent)
    (hnodup : (pairs.map fun p => key p.2).Nodup) :
    (runAdds key cfg db pairs s).2 = [pairs.map Prod.snd] ∧
    ((runAdds key cfg db pairs s).1).queue = [] ∧
    (runAdds key cfg db pairs.dropLast s).2 = [] ∧
    (pairs.map Prod.snd).length = cfg.batchSize := by
  have hne : pairs ≠ [] := by
    intro h
    rw [h] at hn
    simp at hn
    omega
  obtain ⟨front, plast, hfl⟩ : ∃ front plast, pairs = front ++ [plast] :=
    ⟨pairs.dropLast, pairs.getLast hne, (List.dropLast_concat_getLast hne).symm⟩
  subst hfl
  have hlen_front : front.length + 1 = cfg.batchSize := by simpa using hn
  have hfront := runAdds_noflush key cfg db front s
    (by rw [hq]; simp; omega)
    (fun p hp => htime p (by simp [hp]))
    (fun p hp => hfresh p (by simp [hp]))
    (by
      rw [List.map_append] at hnodup
      exact hnodup.of_append_left)
  set S1 : ProcState M := { s with
      queue := s.queue ++ front.map Prod.snd,
      recent := front.foldl
        (fun rc p => dequeAppend RECENT_MAXLEN rc (key p.2)) s.recent,
      stats := { s.stats with received := s.stats.received + front.length } }
    with hS1
  have hlastfresh : key plast.2 ∉ S1.recent := by
    intro hmem
    rcases mem_foldl_dequeAppend key front _ hmem with h1 | ⟨q, hq2, he⟩
    · exact hfresh plast (by simp) h1
    · rw [List.map_append] at hnodup
      have hdis := (List.nodup_append.mp hnodup).2.2
      have hqmem : key q.2 ∈ front.map fun p => key p.2 :=
        List.mem_map.mpr ⟨q, hq2, rfl⟩
      exact hdis hqmem (by simp [he])
  have hsize2 : cfg.batchSize ≤ (enqueueMsg key S1 plast.2).queue.length := by
    show cfg.batchSize ≤ (S1.queue ++ [plast.2]).length
    simp [hS1, hq]
    omega
  have hqne : (enqueueMsg key S1 plast.2).queue ≠ [] := by
    show S1.queue ++ [plast.2] ≠ []
    simp
  have hflush := flushBatch_nonempty db plast.1 (enqueueMsg key S1 plast.2) hqne
  have hlast : addMessage key cfg db plast.1 S1 plast.2
      = flushBatch db plast.1 (enqueueMsg key S1 plast.2) := by
    unfold addMessage
    rw [if_neg (fun hc => hlastfresh hc.2), if_pos hsize2]
  have hbatch : (enqueueMsg key S1 plast.2).queue
      = (front ++ [plast]).map Prod.snd := by
    show S1.queue ++ [plast.2] = _
    simp [hS1, hq]
  have hsingle : runAdds key cfg db [plast] S1
      = ((flushBatch db plast.1 (enqueueMsg key S1 plast.2)).1,
         [(front ++ [plast]).map Prod.snd]) := by
    simp only [runAdds, hlast]
    rw [hflush.2, hbatch]
    rfl
  have hrun : runAdds key cfg db (front ++ [plast]) s
      = ((flushBatch db plast.1 (enqueueMsg key S1 plast.2)).1,
         [(front ++ [plast]).map Prod.snd]) := by
    rw [runAdds_append, hfront]
    show runAdds key cfg db [plast] S1 = _
    exact hsingle
  refine ⟨by rw [hrun], by rw [hrun]; exact hflush.1, ?_, by simpa using hn⟩
  rw [List.dropLast_concat, hfront]

/-- Witness for C2: two fresh messages with distinct keys, batch size two. -/
theorem batch_size_triggers_single_flush_witness :
    (runAdds (fun n : Nat => toString n) ⟨2, 10, true⟩ (fun l => Except.ok l.length)
        [(1, 5), (2, 7)] (initState Nat 0)).2 = [[5, 7]] ∧
    ((runAdds (fun n : Nat => toString n) ⟨2, 10, true⟩ (fun l => Except.ok l.length)
        [(1, 5), (2, 7)] (initState Nat 0)).1).queue = [] ∧
    (runAdds (fun n : Nat => toString n) ⟨2, 10, true⟩ (fun l => Except.ok l.length)
        ([(1, 5), (2, 7)] : List (ℚ × Nat)).dropLast (initState Nat 0)).2 = [] := by
  have h := batch_size_triggers_single_flush (fun n : Nat => toString n)
    ⟨2, 10, true⟩ (fun l => Except.ok l.length) [(1, 5), (2, 7)] (initState Nat 0)
    rfl rfl (by norm_num)
    (by
      intro p hp
      simp only [List.mem_cons, List.not_mem_nil, or_false] at hp
      rcases hp with h | h <;> subst h <;> norm_num [initState])
    (by
      intro p hp
      simp only [List.mem_cons, List.not_mem_nil, or_false] at hp
      rcases hp with h | h <;> subst h <;> simp [initState])
    (by decide)
  refine ⟨?_, h.2.1, h.2.2.1⟩
  have h1 := h.1
  simpa using h1

/-- C3: with deduplication enabled, adding two messages that agree on
`(icao24, timestamp, transmission_type)` consecutively (the first one fresh,
no flush trigger firing on the first add) queues the first and records its
key, then discards the second: the received counter advances for both calls,
the discarded counter only for the second, the queue still holds only the
first, and no batch containing the second is ever handed to the writer. -/
theorem dedup_consecutive_duplicate (cfg : ProcConfig)
    (db : List ParsedMessage → Except Unit Nat) (now1 now2 : ℚ)
    (s : ProcState ParsedMessage) (m1 m2 : ParsedMessage)
    (hded : cfg.enableDedup = true)
    (hicao : m2.icao24 = m1.icao24) (hts : m2.timestamp = m1.timestamp)
    (htt : m2.transmission_type = m1.transmission_type)
    (hfresh : messageKey m1 ∉ s.recent)
    (hsize : s.queue.length + 1 < cfg.batchSize)
    (htime : now1 - s.lastFlush < cfg.batchTimeout) :
    addMessage messageKey cfg db now1 s m1 =
      ({ s with
          queue := s.queue ++ [m1],
          recent := dequeAppend RECENT_MAXLEN s.recent (messageKey m1),
          stats := { s.stats with received := s.stats.received + 1 } }, none) ∧
    addMessage messageKey cfg db now2 (addMessage messageKey cfg db now1 s m1).1 m2 =
      ({ s with
          queue := s.queue ++ [m1],
          recent := dequeAppend RECENT_MAXLEN s.recent (messageKey m1),
          stats := { s.stats with
                      received := s.stats.received + 2,
                      discarded := s.stats.discarded + 1 } }, none) := by
  have hkey : messageKey m2 = messageKey m1 := by
    simp [messageKey, hicao, hts, htt]
  have h1 := addMessage_fresh_noflush messageKey cfg db now1 s m1
    (fun hc => hfresh hc.2) hsize htime
  refine ⟨h1, ?_⟩
  rw [h1]
  have h2 := addMessage_duplicate messageKey cfg db now2
    { s with
        queue := s.queue ++ [m1],
        recent := dequeAppend RECENT_MAXLEN s.recent (messageKey m1),
        stats := { s.stats with received := s.stats.received + 1 } } m2
    hded (by rw [hkey]; exact self_mem_dequeAppend (by norm_num [RECENT_MAXLEN]) _ _)
  exact h2

/-- Witness for C3: two concrete messages agreeing on the dedup triple, added
to a fresh processor. -/
theorem dedup_consecutive_duplicate_witness :
    addMessage messageKey ⟨3, 10, true⟩ (fun l => Except.ok l.length) 1
        (initState ParsedMessage 0) scenarioRecord =
      ({ initState ParsedMessage 0 with
          queue := [scenarioRecord],
          recent := dequeAppend RECENT_MAXLEN [] (messageKey scenarioRecord),
          stats := { (initState ParsedMessage 0).stats with received := 1 } }, none) ∧
    addMessage messageKey ⟨3, 10, true⟩ (fun l => Except.ok l.length) 2
        (addMessage messageKey ⟨3, 10, true⟩ (fun l => Except.ok l.length) 1
          (initState ParsedMessage 0) scenarioRecord).1
        { scenarioRecord with callsign := none } =
      ({ initState ParsedMessage 0 with
          queue := [scenarioRecord],
          recent := dequeAppend RECENT_MAXLEN [] (messageKey scenarioRecord),
          stats := { (initState ParsedMessage 0).stats with
                      received := 2, discarded := 1 } }, none) :=
  dedup_consecutive_duplicate ⟨3, 10, true⟩ (fun l => Except.ok l.length) 1 2
    (initState ParsedMessage 0) scenarioRecord
    { scenarioRecord with callsign := none }
    rfl rfl rfl rfl (by simp [initState]) (by simp [initState])
    (by norm_num [initState])

/-- C7: when the storage writer fails on a flush of a non-empty queue, the
error counter advances by exactly one, the failed batch is not re-queued (the
queue is empty afterwards), the processed and batches-written counters (and
every other piece of state) are unchanged, the batch was handed to the writer
exactly as queued, and a subsequent `add_message` is still accepted (its
received counter advances). -/
theorem flush_error_contained (db : List M → Except Unit Nat) (now : ℚ)
    (s : ProcState M) (hne : s.queue ≠ []) (herr : db s.queue = Except.error ()) :
    (flushBatch db now s).1 =
      { s with queue := []
               stats := { s.stats with errors := s.stats.errors + 1 } } ∧
    (flushBatch db now s).2 = some s.queue ∧
    (∀ (key : M → String) (cfg : ProcConfig) (db2 : List M → Except Unit Nat)
        (now2 : ℚ) (m : M),
      ((addMessage key cfg db2 now2 (flushBatch db now s).1 m).1).stats.received
        = s.stats.received + 1) := by
  have hred : flushBatch db now s =
      ({ s with queue := []
                stats := { s.stats with errors := s.stats.errors + 1 } },
       some s.queue) := by
    simp only [flushBatch, if_neg hne, herr]
  refine ⟨by rw [hred], by rw [hred], fun key cfg db2 now2 m => ?_⟩
  rw [addMessage_fst_received, hred]

/-- Witness for C7: a concrete failing flush. -/
theorem flush_error_contained_witness :
    (({ queue := [3, 4], recent := [], lastFlush := 0
        stats := ⟨2, 0, 0, 0, 0⟩ } : ProcState Nat).queue ≠ []) ∧
    ((fun _ => Except.error ()) : List Nat → Except Unit Nat)
        ({ queue := [3, 4], recent := [], lastFlush := 0
           stats := ⟨2, 0, 0, 0, 0⟩ } : ProcState Nat).queue = Except.error () ∧
    (flushBatch (fun _ => Except.error ()) 9
        ({ queue := [3, 4], recent := [], lastFlush := 0
           stats := ⟨2, 0, 0, 0, 0⟩ } : ProcState Nat)).1
      = { queue := [], recent := [], lastFlush := 0, stats := ⟨2, 0, 0, 0, 1⟩ } :=
  ⟨by decide, rfl,
   ((flush_error_contained (fun _ => Except.error ()) 9
       { queue := [3, 4], recent := [], lastFlush := 0, stats := ⟨2, 0, 0, 0, 0⟩ }
       (by decide) rfl).1)⟩

/-- `pyParse` consults the clock only through `_parse_timestamp` on fields 6
and 7. -/
theorem pyParse_timestamp_congr (line : String) (now1 now2 : PyDateTime)
    (h : pyParseTimestamp now1 ((pySplit ',' line).getD 6 "")
            ((pySplit ',' line).getD 7 "")
       = pyParseTimestamp now2 ((pySplit ',' line).getD 6 "")
            ((pySplit ',' line).getD 7 "")) :
    pyParse now1 line = pyParse now2 line := by
  simp only [pyParse]
  rw [h]

/-- When both date and time fields are non-empty and one of the two formats
parses, `_parse_timestamp` never reads the clock. -/
theorem pyParseTimestamp_indep (now1 now2 : PyDateTime) (d t : String)
    (hd : d ≠ "") (ht : t ≠ "")
    (hok : (strptimeSbs true (d ++ " " ++ t)).isSome
         ∨ (strptimeSbs false (d ++ " " ++ t)).isSome) :
    pyParseTimestamp now1 d t = pyParseTimestamp now2 d t := by
  unfold pyParseTimestamp
  rw [if_neg (by simp [hd, ht]), if_neg (by simp [hd, ht])]
  rcases h1 : strptimeSbs true (d ++ " " ++ t) with _ | r
  · rcases h2 : strptimeSbs false (d ++ " " ++ t) with _ | r2
    · rw [h1, h2] at hok
      simp at hok
    · simp [h2]
  · simp

/-- The scenario line decodes to the literal record, whatever the clock
reads. -/
theorem pyParse_scenario (now : PyDateTime) :
    pyParse now scenarioLine = some scenarioRecord := by
  have h := pyParse_timestamp_congr scenarioLine now ⟨1, 1, 1, 0, 0, 0, 0⟩
    (pyParseTimestamp_indep now ⟨1, 1, 1, 0, 0, 0, 0⟩ _ _ (by decide) (by decide)
      (Or.inl (by decide)))
  rw [h]
  decide

/-- C4: `parse` returns a record exactly when the line has at least 10
comma-separated fields, a known message-type code in field 0, and a non-empty
(after stripping) `icao24` in field 4.  In particular empty or unparsable
date/time fields never cause rejection (the right-hand side does not mention
them), and the embedding of `parse` is a total function — the
`except Exception` wrapper in the source has nothing to catch. -/
theorem parse_accepts_iff (now : PyDateTime) (line : String) :
    (pyParse now line).isSome = true ↔
      (10 ≤ (pySplit ',' line).length ∧
       (pySplit ',' line).getD 0 "" ∈ MESSAGE_TYPES ∧
       pyStrip ((pySplit ',' line).getD 4 "") ≠ "") := by
  simp only [pyParse]
  by_cases h10 : (pySplit ',' line).length < 10
  · rw [if_pos h10]
    simp only [Option.isSome_none, Bool.false_eq_true, false_iff]
    intro hc
    omega
  · rw [if_neg h10]
    by_cases hmt : (pySplit ',' line).getD 0 "" ∈ MESSAGE_TYPES
    · rw [if_neg (by simpa using hmt)]
      by_cases hmsg : ((pySplit ',' line).getD 0 "" = "MSG"
          ∧ 22 ≤ (pySplit ',' line).length)
      · rw [if_pos hmsg]
        by_cases hic : pyStrip ((pySplit ',' line).getD 4 "") = ""
        · rw [if_pos (by rw [hic]; simp)]
          exact iff_of_false (by simp) (fun hc => hc.2.2 hic)
        · rw [if_neg (by
            simp only [Option.isNone_some, Bool.or_false, decide_eq_true_eq]
            exact hic)]
          exact iff_of_true rfl ⟨by omega, hmt, hic⟩
      · rw [if_neg hmsg]
        by_cases hic : pyStrip ((pySplit ',' line).getD 4 "") = ""
        · rw [if_pos (by rw [hic]; simp)]
          exact iff_of_false (by simp) (fun hc => hc.2.2 hic)
        · rw [if_neg (by
            simp only [Option.isNone_some, Bool.or_false, decide_eq_true_eq]
            exact hic)]
          exact iff_of_true rfl ⟨by omega, hmt, hic⟩
    · rw [if_pos (by simpa using hmt)]
      exact iff_of_false (by simp) (fun hc => hmt hc.2.1)

/-- C6: `_parse_timestamp` substitutes the current instant when either input
is empty; otherwise it tries the fractional-seconds format first (its success
decides the result even when the plain format would also apply), then the
whole-seconds format, and substitutes the current instant when both fail;
and every record `parse` produces carries a timestamp. -/
theorem timestamp_fallback_order (now : PyDateTime) (d t : String) :
    ((d = "" ∨ t = "") → pyParseTimestamp now d t = now) ∧
    (∀ r, d ≠ "" → t ≠ "" → strptimeSbs true (d ++ " " ++ t) = some r →
      pyParseTimestamp now d t = r) ∧
    (∀ r, d ≠ "" → t ≠ "" → strptimeSbs true (d ++ " " ++ t) = none →
      strptimeSbs false (d ++ " " ++ t) = some r → pyParseTimestamp now d t = r) ∧
    (strptimeSbs true (d ++ " " ++ t) = none →
      strptimeSbs false (d ++ " " ++ t) = none → pyParseTimestamp now d t = now) ∧
    (∀ (line : String) (m : ParsedMessage),
      pyParse now line = some m → m.timestamp.isSome = true) := by
  refine ⟨?_, ?_, ?_, ?_, ?_⟩
  · intro h
    unfold pyParseTimestamp
    rcases h with h | h <;> rw [if_pos (by simp [h])]
  · intro r hd ht hfrac
    unfold pyParseTimestamp
    rw [if_neg (by simp [hd, ht]), hfrac]
  · intro r hd ht hfrac hplain
    unfold pyParseTimestamp
    rw [if_neg (by simp [hd, ht]), hfrac, hplain]
  · intro hfrac hplain
    unfold pyParseTimestamp
    by_cases hempty : (d = "" || t = "") = true
    · rw [if_pos hempty]
    · rw [if_neg hempty, hfrac, hplain]
  · intro line m hm
    simp only [pyParse] at hm
    repeat' split at hm
    all_goals
      first
        | exact Option.noConfusion hm
        | (rw [← Option.some.inj hm]; rfl)

/-- Witness for C6 at concrete inputs: an empty date falls back to the clock;
a fractional-seconds time parses under the first format; a well-formed
whole-seconds time is handled by the second attempt; garbage falls back to
the clock. -/
theorem timestamp_fallback_order_witness :
    pyParseTimestamp ⟨1, 1, 1, 0, 0, 0, 0⟩ "" "12:00:00" = ⟨1, 1, 1, 0, 0, 0, 0⟩ ∧
    pyParseTimestamp ⟨1, 1, 1, 0, 0, 0, 0⟩ "2024/01/01" "12:00:00.500"
      = ⟨2024, 1, 1, 12, 0, 0, 500000⟩ ∧
    pyParseTimestamp ⟨1, 1, 1, 0, 0, 0, 0⟩ "2024/01/01" "12:00:00"
      = ⟨2024, 1, 1, 12, 0, 0, 0⟩ ∧
    pyParseTimestamp ⟨1, 1, 1, 0, 0, 0, 0⟩ "2024/01/01" "junk"
      = ⟨1, 1, 1, 0, 0, 0, 0⟩ :=
  ⟨(timestamp_fallback_order ⟨1, 1, 1, 0, 0, 0, 0⟩ "" "12:00:00").1 (Or.inl rfl),
   (timestamp_fallback_order ⟨1, 1, 1, 0, 0, 0, 0⟩ "2024/01/01" "12:00:00.500").2.1
     ⟨2024, 1, 1, 12, 0, 0, 500000⟩ (by decide) (by decide) (by decide),
   (timestamp_fallback_order ⟨1, 1, 1, 0, 0, 0, 0⟩ "2024/01/01" "12:00:00").2.2.1
     ⟨2024, 1, 1, 12, 0, 0, 0⟩ (by decide) (by decide) (by decide) (by decide),
   (timestamp_fallback_order ⟨1, 1, 1, 0, 0, 0, 0⟩ "2024/01/01" "junk").2.2.2.1
     (by decide) (by decide)⟩

/-- C5 counterexample: on a line whose date/time fields are empty, the decoded
timestamp is the current clock reading, so two decodes of the same line at
different instants differ — decode is not a deterministic function of the
line alone. -/
theorem parse_depends_on_clock :
    pyParse ⟨2024, 1, 1, 0, 0, 0, 0⟩ "MSG,3,1,1,ABC123,1,,,,"
      ≠ pyParse ⟨2025, 1, 1, 0, 0, 0, 0⟩ "MSG,3,1,1,ABC123,1,,,," := by
  decide

/-- C5 (amended): decode of a line is independent of the clock — so repeated
decodes agree — whenever the line's date and time fields are non-empty and
one of the two timestamp formats parses them; and the well-formed scenario
line decodes to exactly the parsed literal field values. -/
theorem parse_deterministic_when_timestamp_parses (line : String)
    (now1 now2 : PyDateTime)
    (hd : (pySplit ',' line).getD 6 "" ≠ "")
    (ht : (pySplit ',' line).getD 7 "" ≠ "")
    (hok : (strptimeSbs true ((pySplit ',' line).getD 6 "" ++ " "
              ++ (pySplit ',' line).getD 7 "")).isSome
         ∨ (strptimeSbs false ((pySplit ',' line).getD 6 "" ++ " "
              ++ (pySplit ',' line).getD 7 "")).isSome) :
    pyParse now1 line = pyParse now2 line ∧
    pyParse now1 scenarioLine = some scenarioRecord :=
  ⟨pyParse_timestamp_congr line now1 now2
     (pyParseTimestamp_indep now1 now2 _ _ hd ht hok),
   pyParse_scenario now1⟩

/-- Witness for C5's amended statement: two decodes of the scenario line at
different clock readings agree (and equal the literal record). -/
theorem parse_deterministic_witness :
    pyParse ⟨2024, 1, 1, 0, 0, 0, 0⟩ scenarioLine
      = pyParse ⟨2025, 6, 7, 8, 9, 10, 11⟩ scenarioLine ∧
    pyParse ⟨2024, 1, 1, 0, 0, 0, 0⟩ scenarioLine = some scenarioRecord :=
  parse_deterministic_when_timestamp_parses scenarioLine
    ⟨2024, 1, 1, 0, 0, 0, 0⟩ ⟨2025, 6, 7, 8, 9, 10, 11⟩
    (by decide) (by decide) (Or.inl (by decide))

end Adsb
